import Mathlib

/-!
Verification of the `fapi` ingestion server (`cmd/fapi/main.go`).

The Go program is shallowly embedded: strings are `List Char`, byte
payloads are `List Nat`, and the two pieces of Go standard library that
the handler calls out to — `encoding/json.Valid` and the gzip decoder —
are passed in as explicit function parameters (they are external
collaborators, not code of this repository).  The nondeterminism of the
Go `select` statement used for queue admission is modelled by an
inductive relation, and the producer/worker pipeline by a step relation
on queue states.
-/

namespace Fapi

/-! ### Constants (`main.go` lines 35-40) -/

def uploadDir : String := "./uploads"

def maxBodySize : Nat := 10 * 2 ^ 20

def workerCount : Nat := 4

def writeQueueCap : Nat := 100

/-! ### String helpers for the embedding

Go `strings.TrimSpace`, `strings.Split(s, ",")[0]` and
`strings.ReplaceAll` on single characters, over `List Char`. -/

def trimSpace (s : List Char) : List Char :=
  ((s.dropWhile Char.isWhitespace).reverse.dropWhile Char.isWhitespace).reverse

def beforeComma (s : List Char) : List Char :=
  s.takeWhile (fun c => c ≠ ',')

def replaceChar (c d : Char) (s : List Char) : List Char :=
  s.map (fun x => if x = c then d else x)

/-! ### `sanitizeIP` and `getClientIP` (`main.go` lines 265-283)

`getClientIP` prefers the `X-Forwarded-For` header (first comma-separated
entry, trimmed); otherwise it returns the host part of
`net.SplitHostPort(r.RemoteAddr)`, or `""` when that split fails.  The
split itself is standard library, so the model receives its result as
`remoteHost : Option (List Char)`. -/

def sanitizeIP (ip : List Char) : List Char :=
  replaceChar '\\' '_' (replaceChar '/' '_' (replaceChar ':' '_' ip))

def getClientIP (forwardedFor : List Char) (remoteHost : Option (List Char)) :
    List Char :=
  if forwardedFor ≠ [] then trimSpace (beforeComma forwardedFor)
  else match remoteHost with
    | some h => h
    | none => []

/-! ### Decimal formatting

`fmt.Sprintf` with `%d` and the zero-padded numeric fields of the
`time.Format` layout `2006-01-02-15_04_05.000000000` print decimal
digits; modelled by an explicit digit printer. -/

def digitChar (d : Nat) : Char :=
  match d with
  | 0 => '0'
  | 1 => '1'
  | 2 => '2'
  | 3 => '3'
  | 4 => '4'
  | 5 => '5'
  | 6 => '6'
  | 7 => '7'
  | 8 => '8'
  | _ => '9'

def toDecimal (n : Nat) : List Char :=
  if h : n < 10 then [digitChar n]
  else toDecimal (n / 10) ++ [digitChar (n % 10)]
  termination_by n
  decreasing_by
    exact Nat.div_lt_self (Nat.lt_of_lt_of_le (by decide) (Nat.le_of_not_lt h)) (by decide)

def padZero (width : Nat) (s : List Char) : List Char :=
  List.replicate (width - s.length) (digitChar 0) ++ s

def padNat (width n : Nat) : List Char :=
  padZero width (toDecimal n)

/-! ### Timestamp (`main.go` lines 204-205)

`time.Now().UTC().Format("2006-01-02-15_04_05.000000000")`: the wall
clock is external, so the model takes its broken-down fields and renders
the layout string faithfully (zero-padded decimal fields joined by the
layout's literal separator characters). -/

structure Timestamp where
  year : Nat
  month : Nat
  day : Nat
  hour : Nat
  minute : Nat
  second : Nat
  nanos : Nat

def dashChar : Char := '-'
def underscoreChar : Char := '_'
def dotChar : Char := '.'

def formatTimestamp (t : Timestamp) : List Char :=
  padNat 4 t.year ++ [dashChar] ++ padNat 2 t.month ++ [dashChar] ++
    padNat 2 t.day ++ [dashChar] ++ padNat 2 t.hour ++ [underscoreChar] ++
    padNat 2 t.minute ++ [underscoreChar] ++ padNat 2 t.second ++
    [dotChar] ++ padNat 9 t.nanos

/-! ### HTTP-level constants -/

def postMethod : String := "POST"
def getMethod : String := "GET"
def optionsMethod : String := "OPTIONS"
def gzipEncoding : String := "gzip"
def unknownIP : String := "unknown"
def jsonExt : String := ".json"
def txtExt : String := ".txt"
def aliveBody : String := "\x7b\"status\":\"API is alive\"\x7d"
def jsonStoredBody : String := "JSON stored\n"
def txtStoredBody : String := "Invalid JSON â€” stored as .txt\n"
def slashChar : Char := '/'

def errorBody (message : String) : String :=
  "\x7b\"error\":\"" ++ message ++ "\"\x7d"

def msgOnlyPost : String := "Only POST allowed"
def msgInvalidGzip : String := "Invalid gzip data"
def msgReadFailed : String := "Failed to read request body"
def msgCancelled : String := "Request cancelled"
def msgOnlyGetPost : String := "Only GET and POST allowed"
def emptyBody : String := ""

/-! ### Data model -/

/-- `writeRequest` (`main.go` lines 47-50): one job handed from the HTTP
handler to a writer worker. -/
structure writeRequest where
  data : List Nat
  path : List Char
deriving DecidableEq

/-- An inbound HTTP request, as `handlePost`/`handleSubmit` observe it.
`remoteHost` is the result of `net.SplitHostPort(r.RemoteAddr)` (`none`
when the split fails); `ctxDone` is whether `r.Context().Done()` has
fired. -/
structure Request where
  method : String
  contentEncoding : String
  forwardedFor : List Char
  remoteHost : Option (List Char)
  rawBody : List Nat
  ctxDone : Bool

/-- The visible outcome of a request: HTTP status, response body, and the
job appended to `writeQueue`, if any. -/
structure HttpResponse where
  status : Nat
  body : String
  enqueued : Option writeRequest

/-- The two client-error exits of the body-reading phase of `handlePost`
(`main.go` lines 177-197), both answered with status 400. -/
inductive ReadErr where
  | invalidGzip
  | readFailed
deriving DecidableEq

/-- Body acquisition in `handlePost` (`main.go` lines 177-197):
`http.MaxBytesReader` caps the on-the-wire bytes at `maxBodySize`; when
`Content-Encoding: gzip` is present the body is decompressed first.
`gzipDecode` stands for the external `compress/gzip` decoder. -/
def readBody (gzipDecode : List Nat → Option (List Nat)) (r : Request) :
    Except ReadErr (List Nat) :=
  if r.contentEncoding = gzipEncoding then
    match gzipDecode r.rawBody with
    | none => .error .invalidGzip
    | some p =>
      if r.rawBody.length > maxBodySize then .error .readFailed else .ok p
  else
    if r.rawBody.length > maxBodySize then .error .readFailed else .ok r.rawBody

/-- `main.go` lines 199-202: sanitized client address, with the
`"unknown"` fallback when it comes out empty. -/
def clientName (r : Request) : List Char :=
  let ip := sanitizeIP (getClientIP r.forwardedFor r.remoteHost)
  if ip = [] then unknownIP.data else ip

/-- `fmt.Sprintf("-%d", rand.Intn(10000))` (`main.go` line 206). -/
def randSuffix (rnd : Nat) : List Char :=
  dashChar :: toDecimal rnd

/-- `fmt.Sprintf("%s-%s%s%s", ip, timestamp, suffix, ext)`
(`main.go` line 214). -/
def makeFilename (ip ts sfx ext : List Char) : List Char :=
  ip ++ [dashChar] ++ ts ++ sfx ++ ext

/-- Models `filepath.Join(uploadDir, filename)` (`main.go` line 215) for
a separator-free filename; `Join`'s `Clean` step only strips the leading
`"./"` of the equivalent path kept here. -/
def joinPath (dir name : List Char) : List Char :=
  dir ++ slashChar :: name

/-- The deterministic part of `handlePost` after the method guard
(`main.go` lines 177-220): read (and possibly decompress) the body,
derive the destination filename, and build the `writeRequest`.
`jsonValid` stands for the external `encoding/json.Valid`. -/
def prepareJob (gzipDecode : List Nat → Option (List Nat))
    (jsonValid : List Nat → Bool) (now : Timestamp) (rnd : Nat)
    (r : Request) : Except ReadErr (List Nat × Bool × writeRequest) :=
  match readBody gzipDecode r with
  | .error e => .error e
  | .ok body =>
    let isJSON := jsonValid body
    let ext := if isJSON then jsonExt.data else txtExt.data
    let fname :=
      makeFilename (clientName r) (formatTimestamp now) (randSuffix rnd) ext
    .ok (body, isJSON, { data := body, path := joinPath uploadDir.data fname })

/-! ### Queue admission (`main.go` lines 222-228)

The `select` blocks until at least one case is ready and chooses among
the ready cases nondeterministically (Go picks uniformly at random):
sending on `writeQueue` is ready exactly when the channel holds fewer
than `writeQueueCap` jobs, and `<-r.Context().Done()` is ready exactly
when the request's context has been cancelled. -/

inductive AdmissionOutcome where
  | admitted
  | cancelled
deriving DecidableEq

inductive admits : Nat → Bool → AdmissionOutcome → Prop where
  | enqueue {queueLen : Nat} {ctxDone : Bool} (h : queueLen < writeQueueCap) :
      admits queueLen ctxDone .admitted
  | cancel {queueLen : Nat} : admits queueLen true .cancelled

/-! ### The handlers (`main.go` lines 158-236) -/

/-- `handlePost` (`main.go` lines 171-236) as a relation between the
request (plus queue length at admission time) and the response. -/
inductive handlePost (gzipDecode : List Nat → Option (List Nat))
    (jsonValid : List Nat → Bool) (now : Timestamp) (rnd : Nat)
    (r : Request) (queueLen : Nat) : HttpResponse → Prop where
  | methodNotAllowed :
      r.method ≠ postMethod →
      handlePost gzipDecode jsonValid now rnd r queueLen
        ⟨405, errorBody msgOnlyPost, none⟩
  | invalidGzip :
      r.method = postMethod →
      readBody gzipDecode r = .error .invalidGzip →
      handlePost gzipDecode jsonValid now rnd r queueLen
        ⟨400, errorBody msgInvalidGzip, none⟩
  | readFailed :
      r.method = postMethod →
      readBody gzipDecode r = .error .readFailed →
      handlePost gzipDecode jsonValid now rnd r queueLen
        ⟨400, errorBody msgReadFailed, none⟩
  | accepted (body : List Nat) (isJSON : Bool) (job : writeRequest) :
      r.method = postMethod →
      prepareJob gzipDecode jsonValid now rnd r = .ok (body, isJSON, job) →
      admits queueLen r.ctxDone .admitted →
      handlePost gzipDecode jsonValid now rnd r queueLen
        ⟨202, if isJSON then jsonStoredBody else txtStoredBody, some job⟩
  | cancelledReq (body : List Nat) (isJSON : Bool) (job : writeRequest) :
      r.method = postMethod →
      prepareJob gzipDecode jsonValid now rnd r = .ok (body, isJSON, job) →
      admits queueLen r.ctxDone .cancelled →
      handlePost gzipDecode jsonValid now rnd r queueLen
        ⟨408, errorBody msgCancelled, none⟩

/-- `handleSubmit` (`main.go` lines 158-169): method dispatch on the
submission route. -/
inductive handleSubmit (gzipDecode : List Nat → Option (List Nat))
    (jsonValid : List Nat → Bool) (now : Timestamp) (rnd : Nat)
    (r : Request) (queueLen : Nat) : HttpResponse → Prop where
  | post (resp : HttpResponse) :
      r.method = postMethod →
      handlePost gzipDecode jsonValid now rnd r queueLen resp →
      handleSubmit gzipDecode jsonValid now rnd r queueLen resp
  | get :
      r.method = getMethod →
      handleSubmit gzipDecode jsonValid now rnd r queueLen
        ⟨200, aliveBody, none⟩
  | other :
      r.method ≠ postMethod →
      r.method ≠ getMethod →
      handleSubmit gzipDecode jsonValid now rnd r queueLen
        ⟨405, errorBody msgOnlyGetPost, none⟩

/-- The submission route as served through the middleware chain
(`main.go` lines 90 and 108-121): `withCORS` intercepts `OPTIONS` with
204 before the mux reaches `handleSubmit`.  (`withRecover` and
`withLogging` do not alter responses on these paths.) -/
inductive serveCollection (gzipDecode : List Nat → Option (List Nat))
    (jsonValid : List Nat → Bool) (now : Timestamp) (rnd : Nat)
    (r : Request) (queueLen : Nat) : HttpResponse → Prop where
  | options :
      r.method = optionsMethod →
      serveCollection gzipDecode jsonValid now rnd r queueLen ⟨204, emptyBody, none⟩
  | pass (resp : HttpResponse) :
      r.method ≠ optionsMethod →
      handleSubmit gzipDecode jsonValid now rnd r queueLen resp →
      serveCollection gzipDecode jsonValid now rnd r queueLen resp

/-! ### The write path (`main.go` lines 238-263)

`writeToFile` touches two resources — the created file (closed by
`defer f.Close()`) and the pooled buffer (returned by
`defer bufferPool.Put(buf)` right after `bufferPool.Get()`).  The
filesystem outcomes of `os.Create`, `buf.Write` and `buf.Flush` are
external, so the model takes them as three booleans and records what the
function did on that path. -/

structure WriteExec where
  dest : List Char
  created : Bool
  bufAcquired : Bool
  bufReleased : Bool
  fileClosed : Bool
  content : Option (List Nat)
  loggedError : Bool
deriving DecidableEq

def writeToFile (data : List Nat) (path : List Char)
    (createOk writeOk flushOk : Bool) : WriteExec :=
  if createOk = false then
    { dest := path, created := false, bufAcquired := false,
      bufReleased := false, fileClosed := false, content := none,
      loggedError := true }
  else if writeOk = false then
    { dest := path, created := true, bufAcquired := true,
      bufReleased := true, fileClosed := true, content := none,
      loggedError := true }
  else if flushOk = false then
    { dest := path, created := true, bufAcquired := true,
      bufReleased := true, fileClosed := true, content := none,
      loggedError := true }
  else
    { dest := path, created := true, bufAcquired := true,
      bufReleased := true, fileClosed := true, content := some data,
      loggedError := false }

/-- `fileWriterWorker` (`main.go` lines 238-242): drain jobs in order,
calling `writeToFile` on each; `fsOutcome` supplies the external
create/write/flush outcomes per job. -/
def fileWriterWorker (fsOutcome : writeRequest → Bool × Bool × Bool)
    (jobs : List writeRequest) : List WriteExec :=
  jobs.map (fun j =>
    writeToFile j.data j.path (fsOutcome j).1 (fsOutcome j).2.1 (fsOutcome j).2.2)

/-! ### Readiness (`main.go` lines 42-45, 61-71, 73-106, 148-156)

`isReady` starts as the zero value `false`; `setReady` overwrites it
under the write lock and `checkReady` reads it under the read lock, so a
probe observes exactly the last value set.  `main`'s startup sequence is
recorded as a trace of events in program order. -/

def setReady (ready : Bool) (_isReady : Bool) : Bool := ready

def checkReady (isReady : Bool) : Bool := isReady

def readyBody : String := "READY\n"
def notReadyBody : String := "NOT READY\n"

/-- `handleReady` (`main.go` lines 148-156). -/
def handleReady (isReady : Bool) : HttpResponse :=
  if checkReady isReady then ⟨200, readyBody, none⟩
  else ⟨503, notReadyBody, none⟩

inductive MainEvent where
  | mkdirUploads
  | spawnWorker
  | setReadyCall (ready : Bool)
  | listenBind
deriving DecidableEq

/-- The startup sequence of `main` (`main.go` lines 73-106) in program
order: create the upload directory, spawn `workerCount` workers, call
`setReady(true)`, then `ListenAndServe` (which binds the listener and
serves). -/
def mainTrace : List MainEvent :=
  [MainEvent.mkdirUploads, MainEvent.spawnWorker, MainEvent.spawnWorker,
   MainEvent.spawnWorker, MainEvent.spawnWorker,
   MainEvent.setReadyCall true, MainEvent.listenBind]

/-- The value of `isReady` after a trace of events: `false` at process
start, overwritten by each `setReady` call. -/
def readyFlag (events : List MainEvent) : Bool :=
  events.foldl
    (fun flag e =>
      match e with
      | MainEvent.setReadyCall b => setReady b flag
      | _ => flag)
    false

/-! ### The bounded queue as a transition system (`main.go` lines 52-53)

`writeQueue` is a buffered channel of capacity `writeQueueCap`: a send
completes only while fewer than `writeQueueCap` jobs are buffered
(that is the guard the `select` in `handlePost` races against), and a
worker receive removes the oldest job. -/

inductive QueueStep : List writeRequest → List writeRequest → Prop where
  | enqueue (q : List writeRequest) (job : writeRequest)
      (h : q.length < writeQueueCap) : QueueStep q (q ++ [job])
  | dequeue (job : writeRequest) (q : List writeRequest) :
      QueueStep (job :: q) q

inductive QueueReachable : List writeRequest → Prop where
  | init : QueueReachable []
  | step {q q' : List writeRequest} :
      QueueReachable q → QueueStep q q' → QueueReachable q'

/-! ### Helper lemmas -/

/-- Inversion of `prepareJob`: a successful preparation pins down the
payload, the JSON classification, and the destination path. -/
theorem prepareJob_ok_inv {gzipDecode : List Nat → Option (List Nat)}
    {jsonValid : List Nat → Bool} {now : Timestamp} {rnd : Nat} {r : Request}
    {body : List Nat} {isJSON : Bool} {job : writeRequest}
    (h : prepareJob gzipDecode jsonValid now rnd r = .ok (body, isJSON, job)) :
    readBody gzipDecode r = .ok body ∧ isJSON = jsonValid body ∧
      job.data = body ∧
      job.path = joinPath uploadDir.data
        (makeFilename (clientName r) (formatTimestamp now) (randSuffix rnd)
          (if jsonValid body then jsonExt.data else txtExt.data)) := by
  unfold prepareJob at h
  cases hrb : readBody gzipDecode r with
  | error e => rw [hrb] at h; exact absurd h (by simp)
  | ok b =>
    rw [hrb] at h
    simp only [Except.ok.injEq, Prod.mk.injEq] at h
    obtain ⟨hb, hj, hjob⟩ := h
    subst hb hj
    exact ⟨rfl, rfl, by rw [← hjob], by rw [← hjob]⟩

/-- A successful `prepareJob` is exactly a successful `readBody`. -/
theorem prepareJob_error_inv {gzipDecode : List Nat → Option (List Nat)}
    {jsonValid : List Nat → Bool} {now : Timestamp} {rnd : Nat} {r : Request}
    {e : ReadErr}
    (h : prepareJob gzipDecode jsonValid now rnd r = .error e) :
    readBody gzipDecode r = .error e := by
  unfold prepareJob at h
  cases hrb : readBody gzipDecode r with
  | error e2 => rw [hrb] at h; simp only [Except.error.injEq] at h; rw [h]
  | ok b => rw [hrb] at h; exact absurd h (by simp)

/-- `readBody` never succeeds when the on-the-wire body exceeds the cap
installed by `http.MaxBytesReader`. -/
theorem readBody_ok_le_cap {gzipDecode : List Nat → Option (List Nat)}
    {r : Request} {body : List Nat}
    (h : readBody gzipDecode r = .ok body) :
    r.rawBody.length ≤ maxBodySize := by
  unfold readBody at h
  split at h
  · split at h
    · exact absurd h (by simp)
    · split at h
      · exact absurd h (by simp)
      · omega
  · split at h
    · exact absurd h (by simp)
    · omega

/-! ### Concrete test fixtures used by the witnesses -/

def gzId : List Nat → Option (List Nat) := fun b => some b

def gzNone : List Nat → Option (List Nat) := fun _ => none

def jvTrue : List Nat → Bool := fun _ => true

def jvFalse : List Nat → Bool := fun _ => false

def testNow : Timestamp := ⟨2024, 5, 6, 7, 8, 9, 10⟩

def testReq : Request :=
  { method := postMethod, contentEncoding := emptyBody, forwardedFor := [],
    remoteHost := some ['1'], rawBody := [123, 125], ctxDone := false }

def testJob : writeRequest :=
  { data := [123, 125],
    path := joinPath uploadDir.data
      (makeFilename (clientName testReq) (formatTimestamp testNow)
        (randSuffix 0) jsonExt.data) }

/-! ### The claims -/

/-- C1: every POST whose (possibly decompressed) payload P passes
admission produces exactly one write job whose content is P unchanged;
the destination filename ends in `.json` when P is valid JSON and `.txt`
otherwise; and the write path stores the payload bit-for-bit (it either
writes exactly P or, on failure, nothing). -/
theorem c1_admitted_payload_roundtrip
    (gzipDecode : List Nat → Option (List Nat)) (jsonValid : List Nat → Bool)
    (now : Timestamp) (rnd : Nat) (r : Request) (queueLen : Nat)
    (resp : HttpResponse)
    (hserve : handlePost gzipDecode jsonValid now rnd r queueLen resp)
    (hst : resp.status = 202) :
    ∃ job P, resp.enqueued = some job ∧
      readBody gzipDecode r = .ok P ∧
      job.data = P ∧
      (∃ stem, job.path = stem ++
        (if jsonValid P then jsonExt.data else txtExt.data)) ∧
      (writeToFile job.data job.path true true true).content = some P ∧
      (∀ createOk writeOk flushOk : Bool,
        (writeToFile job.data job.path createOk writeOk flushOk).content =
            some P ∨
          (writeToFile job.data job.path createOk writeOk flushOk).content =
            none) := by
  cases hserve with
  | methodNotAllowed h => exact absurd hst (by decide)
  | invalidGzip h1 h2 => exact absurd hst (by decide)
  | readFailed h1 h2 => exact absurd hst (by decide)
  | cancelledReq body isJSON job h1 h2 h3 => exact absurd hst (by decide)
  | accepted body isJSON job h1 h2 h3 =>
    obtain ⟨hrb, hij, hdata, hpath⟩ := prepareJob_ok_inv h2
    refine ⟨job, body, rfl, hrb, hdata, ?_, ?_, ?_⟩
    · refine ⟨uploadDir.data ++ slashChar ::
        (clientName r ++ [dashChar] ++ formatTimestamp now ++ randSuffix rnd),
        ?_⟩
      rw [hpath]
      simp [joinPath, makeFilename, List.append_assoc]
    · rw [hdata]; rfl
    · intro createOk writeOk flushOk
      cases createOk <;> cases writeOk <;> cases flushOk <;>
        simp [writeToFile, hdata]

/-- Witness for C1 at a concrete POST of the JSON payload `{}`. -/
theorem c1_witness :
    ∃ job P,
      (HttpResponse.mk 202 jsonStoredBody (some testJob)).enqueued =
        some job ∧
      readBody gzId testReq = .ok P ∧
      job.data = P ∧
      (∃ stem, job.path = stem ++
        (if jvTrue P then jsonExt.data else txtExt.data)) ∧
      (writeToFile job.data job.path true true true).content = some P ∧
      (∀ createOk writeOk flushOk : Bool,
        (writeToFile job.data job.path createOk writeOk flushOk).content =
            some P ∨
          (writeToFile job.data job.path createOk writeOk flushOk).content =
            none) :=
  c1_admitted_payload_roundtrip gzId jvTrue testNow 0 testReq 0 _
    (handlePost.accepted [123, 125] true testJob rfl rfl
      (admits.enqueue (by decide)))
    rfl

/-- C2 counterexample: admission is a `select` racing the queue send
against the cancellation signal; when the context has already fired it
may answer `Rejected(Cancelled)` (408) even though the queue has free
capacity, so the outcome is not independent of the cancellation
signal. -/
theorem c2_counterexample :
    ¬ (∀ (gzipDecode : List Nat → Option (List Nat))
        (jsonValid : List Nat → Bool) (now : Timestamp) (rnd : Nat)
        (r : Request) (queueLen : Nat) (resp : HttpResponse),
        handlePost gzipDecode jsonValid now rnd r queueLen resp →
        queueLen < writeQueueCap → resp.status = 202) := by
  intro h
  have hc :=
    h gzId jvTrue testNow 0
      { method := postMethod, contentEncoding := emptyBody, forwardedFor := [],
        remoteHost := some ['1'], rawBody := [123, 125], ctxDone := true }
      0 ⟨408, errorBody msgCancelled, none⟩
      (handlePost.cancelledReq [123, 125] true
        { data := [123, 125],
          path := joinPath uploadDir.data
            (makeFilename (clientName testReq) (formatTimestamp testNow)
              (randSuffix 0) jsonExt.data) }
        rfl rfl admits.cancel)
      (by decide)
  exact absurd hc (by decide)

/-- C2 (amended): admission has exactly the two outcomes 202-with-job
and 408-without-job; and whenever the queue has free capacity AND the
request's cancellation signal has not fired, the job is appended and
`Admitted` is the only possible outcome. -/
theorem c2_admission_outcomes :
    (∀ (gzipDecode : List Nat → Option (List Nat))
        (jsonValid : List Nat → Bool) (now : Timestamp) (rnd : Nat)
        (r : Request) (queueLen : Nat) (resp : HttpResponse)
        (body : List Nat) (isJSON : Bool) (job : writeRequest),
        handlePost gzipDecode jsonValid now rnd r queueLen resp →
        r.method = postMethod →
        prepareJob gzipDecode jsonValid now rnd r = .ok (body, isJSON, job) →
        (resp.status = 202 ∧ resp.enqueued = some job) ∨
          (resp.status = 408 ∧ resp.enqueued = none)) ∧
    (∀ queueLen : Nat, ∀ ctxDone : Bool,
        queueLen < writeQueueCap → admits queueLen ctxDone .admitted) ∧
    (∀ (queueLen : Nat) (o : AdmissionOutcome),
        admits queueLen false o → o = .admitted) ∧
    (∀ (q : List writeRequest) (job : writeRequest),
        q.length < writeQueueCap → QueueStep q (q ++ [job])) := by
  refine ⟨?_, ?_, ?_, ?_⟩
  · intro gzipDecode jsonValid now rnd r queueLen resp body isJSON job
      hserve hm hprep
    cases hserve with
    | methodNotAllowed h => exact absurd hm h
    | invalidGzip h1 h2 =>
      rw [(prepareJob_ok_inv hprep).1] at h2; exact absurd h2 (by simp)
    | readFailed h1 h2 =>
      rw [(prepareJob_ok_inv hprep).1] at h2; exact absurd h2 (by simp)
    | accepted body2 isJSON2 job2 h1 h2 h3 =>
      rw [hprep] at h2
      simp only [Except.ok.injEq, Prod.mk.injEq] at h2
      exact Or.inl ⟨rfl, by rw [h2.2.2]⟩
    | cancelledReq body2 isJSON2 job2 h1 h2 h3 => exact Or.inr ⟨rfl, rfl⟩
  · intro queueLen ctxDone h
    exact admits.enqueue h
  · intro queueLen o h
    cases h with
    | enqueue h2 => rfl
  · intro q job h
    exact QueueStep.enqueue q job h

/-- Witness for C2 (amended) at concrete inputs: a POST admitted with an
idle cancellation signal, plus the admission facts at queue length 0. -/
theorem c2_witness :
    ((HttpResponse.mk 202 jsonStoredBody (some testJob)).status = 202 ∧
        (HttpResponse.mk 202 jsonStoredBody (some testJob)).enqueued =
          some testJob) ∨
      ((HttpResponse.mk 202 jsonStoredBody (some testJob)).status = 408 ∧
        (HttpResponse.mk 202 jsonStoredBody (some testJob)).enqueued =
          none) :=
  c2_admission_outcomes.1 gzId jvTrue testNow 0 testReq 0 _ [123, 125] true
    testJob
    (handlePost.accepted [123, 125] true testJob rfl rfl
      (admits.enqueue (by decide)))
    rfl rfl

/-- C3: in every reachable state of the pipeline the number of in-flight
jobs never exceeds `writeQueueCap` (100): the enqueue step is guarded by
free capacity and only worker dequeues shrink the queue. -/
theorem c3_queue_bounded (q : List writeRequest) (h : QueueReachable q) :
    q.length ≤ writeQueueCap := by
  induction h with
  | init => exact Nat.zero_le _
  | step hreach hstep ih =>
    cases hstep with
    | enqueue q2 job hlt => simpa using hlt
    | dequeue job q2 => exact Nat.le_of_succ_le (by simpa using ih)

/-- Witness for C3 at the concrete reachable state holding one job. -/
theorem c3_witness : ([testJob] : List writeRequest).length ≤ writeQueueCap :=
  c3_queue_bounded [testJob]
    (QueueReachable.step QueueReachable.init
      (QueueStep.enqueue [] testJob (by decide)))

/-- Once `isReady` is `true`, any further events that never call
`setReady(false)` leave it `true`. -/
theorem readyFlag_stays_true (more : List MainEvent)
    (hno : MainEvent.setReadyCall false ∉ more) :
    ∀ s : Bool, s = true →
      more.foldl
        (fun flag e =>
          match e with
          | MainEvent.setReadyCall b => setReady b flag
          | _ => flag)
        s = true := by
  induction more with
  | nil => intro s hs; simpa using hs
  | cons e rest ih =>
    intro s hs
    have hno2 : MainEvent.setReadyCall false ∉ rest := by
      intro hmem; exact hno (List.mem_cons_of_mem e hmem)
    cases e with
    | setReadyCall b =>
      cases b with
      | false => exact absurd (List.mem_cons_self _ _) hno
      | true => exact ih hno2 _ rfl
    | mkdirUploads => exact ih hno2 _ hs
    | spawnWorker => exact ih hno2 _ hs
    | listenBind => exact ih hno2 _ hs

/-- C4 counterexample: in `main`'s startup sequence `setReady(true)` is
called (line 102) strictly before `ListenAndServe` binds the listener
(line 103), so the readiness flag is not set after the listener bind
completes. -/
theorem c4_counterexample :
    mainTrace.indexOf (MainEvent.setReadyCall true) <
        mainTrace.indexOf MainEvent.listenBind ∧
      ¬ (mainTrace.indexOf MainEvent.listenBind <
        mainTrace.indexOf (MainEvent.setReadyCall true)) := by
  decide

/-- C4 (amended): the readiness flag is `false` at process start and is
set `true` exactly once, after directory creation and worker-pool spawn
but immediately BEFORE the listener bind; it is never reset to `false`;
every readiness probe before that point answers 503 and every probe
after it answers 200. -/
theorem c4_readiness_lifecycle :
    readyFlag [] = false ∧
    mainTrace.count (MainEvent.setReadyCall true) = 1 ∧
    MainEvent.setReadyCall false ∉ mainTrace ∧
    mainTrace.indexOf MainEvent.mkdirUploads <
      mainTrace.indexOf (MainEvent.setReadyCall true) ∧
    (mainTrace.take
        (mainTrace.indexOf (MainEvent.setReadyCall true))).count
      MainEvent.spawnWorker = workerCount ∧
    mainTrace.indexOf (MainEvent.setReadyCall true) <
      mainTrace.indexOf MainEvent.listenBind ∧
    (∀ t more : List MainEvent, readyFlag t = true →
      MainEvent.setReadyCall false ∉ more → readyFlag (t ++ more) = true) ∧
    (∀ k : Nat, k < 8 →
      ((handleReady (readyFlag (mainTrace.take k))).status = 200 ↔
        mainTrace.indexOf (MainEvent.setReadyCall true) < k)) ∧
    (∀ k : Nat, k < 8 →
      ((handleReady (readyFlag (mainTrace.take k))).status = 503 ↔
        k ≤ mainTrace.indexOf (MainEvent.setReadyCall true))) := by
  refine ⟨by decide, by decide, by decide, by decide, by decide, by decide,
    ?_, by decide, by decide⟩
  intro t more ht hno
  unfold readyFlag
  rw [List.foldl_append]
  exact readyFlag_stays_true more hno _ (by simpa [readyFlag] using ht)

/-- Witness for C4 at concrete traces: the flag set during `mainTrace`
stays set across a later probe-only suffix. -/
theorem c4_witness :
    readyFlag (mainTrace ++ [MainEvent.listenBind]) = true :=
  c4_readiness_lifecycle.2.2.2.2.2.2.1 mainTrace [MainEvent.listenBind]
    (by decide) (by decide)

/-- An `OPTIONS` request used to exercise the CORS preflight path. -/
def optionsReq : Request :=
  { method := optionsMethod, contentEncoding := emptyBody, forwardedFor := [],
    remoteHost := some ['1'], rawBody := [], ctxDone := false }

/-- C5 counterexample: an `OPTIONS` request on the submission route is
neither POST nor GET, yet the middleware chain answers it with 204 (the
CORS preflight response), not 405. -/
theorem c5_counterexample :
    ¬ (∀ (gzipDecode : List Nat → Option (List Nat))
        (jsonValid : List Nat → Bool) (now : Timestamp) (rnd : Nat)
        (r : Request) (queueLen : Nat) (resp : HttpResponse),
        serveCollection gzipDecode jsonValid now rnd r queueLen resp →
        r.method ≠ postMethod → r.method ≠ getMethod →
        resp.status = 405) := by
  intro h
  have hc :=
    h gzId jvTrue testNow 0 optionsReq 0 ⟨204, emptyBody, none⟩
      (serveCollection.options rfl) (by decide) (by decide)
  exact absurd hc (by decide)

/-- C5 (amended): on the submission route, every request whose method is
none of POST, GET and OPTIONS is rejected with 405 and enqueues nothing;
GET is answered 200 with the static alive payload; OPTIONS is answered
204 by the CORS layer. -/
theorem c5_method_dispatch :
    (∀ (gzipDecode : List Nat → Option (List Nat))
        (jsonValid : List Nat → Bool) (now : Timestamp) (rnd : Nat)
        (r : Request) (queueLen : Nat) (resp : HttpResponse),
        serveCollection gzipDecode jsonValid now rnd r queueLen resp →
        r.method ≠ postMethod → r.method ≠ getMethod →
        r.method ≠ optionsMethod →
        resp.status = 405 ∧ resp.body = errorBody msgOnlyGetPost ∧
          resp.enqueued = none) ∧
    (∀ (gzipDecode : List Nat → Option (List Nat))
        (jsonValid : List Nat → Bool) (now : Timestamp) (rnd : Nat)
        (r : Request) (queueLen : Nat) (resp : HttpResponse),
        serveCollection gzipDecode jsonValid now rnd r queueLen resp →
        r.method = getMethod →
        resp.status = 200 ∧ resp.body = aliveBody ∧
          resp.enqueued = none) ∧
    (∀ (gzipDecode : List Nat → Option (List Nat))
        (jsonValid : List Nat → Bool) (now : Timestamp) (rnd : Nat)
        (r : Request) (queueLen : Nat),
        r.method = optionsMethod →
        serveCollection gzipDecode jsonValid now rnd r queueLen
          ⟨204, emptyBody, none⟩) := by
  refine ⟨?_, ?_, ?_⟩
  · intro gzipDecode jsonValid now rnd r queueLen resp hserve hp hg ho
    cases hserve with
    | options h => exact absurd h ho
    | pass resp h hsub =>
      cases hsub with
      | post resp2 h1 h2 => exact absurd h1 hp
      | get h1 => exact absurd h1 hg
      | other h1 h2 => exact ⟨rfl, rfl, rfl⟩
  · intro gzipDecode jsonValid now rnd r queueLen resp hserve hg
    cases hserve with
    | options h => rw [hg] at h; exact absurd h (by decide)
    | pass resp h hsub =>
      cases hsub with
      | post resp2 h1 h2 => rw [hg] at h1; exact absurd h1 (by decide)
      | get h1 => exact ⟨rfl, rfl, rfl⟩
      | other h1 h2 => exact absurd hg h2
  · intro gzipDecode jsonValid now rnd r queueLen ho
    exact serveCollection.options ho

/-- Witness for C5 (amended) at a concrete DELETE request. -/
theorem c5_witness :
    (HttpResponse.mk 405 (errorBody msgOnlyGetPost) none).status = 405 ∧
      (HttpResponse.mk 405 (errorBody msgOnlyGetPost) none).body =
        errorBody msgOnlyGetPost ∧
      (HttpResponse.mk 405 (errorBody msgOnlyGetPost) none).enqueued =
        none :=
  c5_method_dispatch.1 gzId jvTrue testNow 0
    { method := "DELETE", contentEncoding := emptyBody, forwardedFor := [],
      remoteHost := some ['1'], rawBody := [], ctxDone := false }
    0 _
    (serveCollection.pass _ (by decide)
      (handleSubmit.other (by decide) (by decide)))
    (by decide) (by decide) (by decide)

/-- A gzip request whose 3 on-the-wire bytes are within the cap but
whose decompressed form exceeds it (gzip can expand a small compressed
stream by a factor of about 1000). -/
def bombPayload : List Nat := List.replicate (maxBodySize + 1) 0

def gzBomb : List Nat → Option (List Nat) := fun _ => some bombPayload

def bombReq : Request :=
  { method := postMethod, contentEncoding := gzipEncoding,
    forwardedFor := ['a'], remoteHost := none, rawBody := [31, 139, 8],
    ctxDone := false }

def bombJob : writeRequest :=
  { data := bombPayload,
    path := joinPath uploadDir.data
      (makeFilename (clientName bombReq) (formatTimestamp testNow)
        (randSuffix 0) txtExt.data) }

/-- C6 counterexample: `http.MaxBytesReader` caps only the on-the-wire
bytes; a gzip body whose compressed size is within the cap is read,
decompressed and admitted even when the decompressed payload exceeds
`maxBodySize`, so the request is answered 202, not a 4xx. -/
theorem c6_counterexample :
    ¬ (∀ (gzipDecode : List Nat → Option (List Nat))
        (jsonValid : List Nat → Bool) (now : Timestamp) (rnd : Nat)
        (r : Request) (queueLen : Nat) (resp : HttpResponse)
        (payload : List Nat),
        handlePost gzipDecode jsonValid now rnd r queueLen resp →
        readBody gzipDecode r = .ok payload →
        payload.length > maxBodySize →
        400 ≤ resp.status ∧ resp.status < 500) := by
  intro h
  have hc :=
    h gzBomb jvFalse testNow 0 bombReq 0 ⟨202, txtStoredBody, some bombJob⟩
      bombPayload
      (handlePost.accepted bombPayload false bombJob rfl rfl
        (admits.enqueue (by decide)))
      rfl
      (by rw [bombPayload, List.length_replicate]; exact Nat.lt_succ_self _)
  exact absurd hc.1 (by decide)

/-- C6 (amended): the body-size cap applies to the on-the-wire bytes:
every POST whose raw body exceeds `maxBodySize` is rejected with 400 and
enqueues nothing, independent of queue state; a gzip payload whose only
oversize form is the decompressed one is not rejected. -/
theorem c6_oversized_rejected
    (gzipDecode : List Nat → Option (List Nat)) (jsonValid : List Nat → Bool)
    (now : Timestamp) (rnd : Nat) (r : Request) (queueLen : Nat)
    (resp : HttpResponse)
    (hserve : handlePost gzipDecode jsonValid now rnd r queueLen resp)
    (hm : r.method = postMethod)
    (hlen : r.rawBody.length > maxBodySize) :
    resp.status = 400 ∧ resp.enqueued = none := by
  cases hserve with
  | methodNotAllowed h => exact absurd hm h
  | invalidGzip h1 h2 => exact ⟨rfl, rfl⟩
  | readFailed h1 h2 => exact ⟨rfl, rfl⟩
  | accepted body isJSON job h1 h2 h3 =>
    exact absurd (readBody_ok_le_cap (prepareJob_ok_inv h2).1)
      (Nat.not_le_of_lt hlen)
  | cancelledReq body isJSON job h1 h2 h3 =>
    exact absurd (readBody_ok_le_cap (prepareJob_ok_inv h2).1)
      (Nat.not_le_of_lt hlen)

/-- An uncompressed POST whose raw body exceeds the cap by one byte. -/
def oversizedReq : Request :=
  { method := postMethod, contentEncoding := emptyBody, forwardedFor := [],
    remoteHost := some ['1'], rawBody := List.replicate (maxBodySize + 1) 0,
    ctxDone := false }

/-- Witness for C6 (amended) at a concrete oversized POST. -/
theorem c6_witness :
    (HttpResponse.mk 400 (errorBody msgReadFailed) none).status = 400 ∧
      (HttpResponse.mk 400 (errorBody msgReadFailed) none).enqueued =
        none :=
  c6_oversized_rejected gzId jvTrue testNow 0 oversizedReq 0 _
    (handlePost.readFailed rfl
      (by
        unfold readBody oversizedReq
        rw [if_neg (by decide)]
        rw [if_pos
          (by rw [List.length_replicate]; exact Nat.lt_succ_self _)]))
    rfl
    (by
      show (oversizedReq.rawBody).length > maxBodySize
      unfold oversizedReq
      rw [List.length_replicate]
      exact Nat.lt_succ_self _)

/-- C7: client-error rejections are atomic: every response on the
submission route with a 4xx status enqueues no job; and every file write
a worker performs comes from a job that was actually enqueued. -/
theorem c7_client_error_atomicity :
    (∀ (gzipDecode : List Nat → Option (List Nat))
        (jsonValid : List Nat → Bool) (now : Timestamp) (rnd : Nat)
        (r : Request) (queueLen : Nat) (resp : HttpResponse),
        serveCollection gzipDecode jsonValid now rnd r queueLen resp →
        400 ≤ resp.status → resp.status < 500 →
        resp.enqueued = none) ∧
    (∀ (fsOutcome : writeRequest → Bool × Bool × Bool)
        (jobs : List writeRequest) (e : WriteExec),
        e ∈ fileWriterWorker fsOutcome jobs →
        ∃ j, j ∈ jobs ∧ e.dest = j.path) := by
  constructor
  · intro gzipDecode jsonValid now rnd r queueLen resp hserve hlo hhi
    cases hserve with
    | options h => exact absurd hlo (by decide)
    | pass resp h hsub =>
      cases hsub with
      | post resp2 h1 h2 =>
        cases h2 with
        | methodNotAllowed h3 => rfl
        | invalidGzip h3 h4 => rfl
        | readFailed h3 h4 => rfl
        | accepted body isJSON job h3 h4 h5 => simp at hlo
        | cancelledReq body isJSON job h3 h4 h5 => rfl
      | get h1 => exact absurd hlo (by decide)
      | other h1 h2 => rfl
  · intro fsOutcome jobs e he
    unfold fileWriterWorker at he
    obtain ⟨j, hj, hje⟩ := List.mem_map.mp he
    refine ⟨j, hj, ?_⟩
    rw [← hje]
    cases h1 : (fsOutcome j).1 <;> cases h2 : (fsOutcome j).2.1 <;>
      cases h3 : (fsOutcome j).2.2 <;> simp [writeToFile, h1, h2, h3]

/-- Witness for C7 at a concrete corrupt-gzip POST answered 400. -/
theorem c7_witness :
    (HttpResponse.mk 400 (errorBody msgInvalidGzip) none).enqueued = none :=
  c7_client_error_atomicity.1 gzNone jvTrue testNow 0
    { method := postMethod, contentEncoding := gzipEncoding,
      forwardedFor := [], remoteHost := some ['1'], rawBody := [0, 1, 2],
      ctxDone := false }
    0 _
    (serveCollection.pass _ (by decide)
      (handleSubmit.post _ rfl (handlePost.invalidGzip rfl rfl)))
    (by decide) (by decide)

/-! ### Characters of generated filenames -/

/-- A character safe for a single path component: not a separator on
either convention and not a drive colon. -/
abbrev NoSepChar (c : Char) : Prop := c ≠ '/' ∧ c ≠ '\\' ∧ c ≠ ':'

theorem replaceChar_mem {a b c : Char} {s : List Char}
    (h : c ∈ replaceChar a b s) : c = b ∨ (c ∈ s ∧ c ≠ a) := by
  unfold replaceChar at h
  obtain ⟨x, hx, hxc⟩ := List.mem_map.mp h
  by_cases hxa : x = a
  · rw [if_pos hxa] at hxc; exact Or.inl hxc.symm
  · rw [if_neg hxa] at hxc; subst hxc; exact Or.inr ⟨hx, hxa⟩

theorem sanitizeIP_noSep (s : List Char) :
    ∀ c ∈ sanitizeIP s, NoSepChar c := by
  intro c hc
  rcases replaceChar_mem hc with h | ⟨h2, hne92⟩
  · subst h; decide
  · rcases replaceChar_mem h2 with h | ⟨h1, hne47⟩
    · subst h; decide
    · rcases replaceChar_mem h1 with h | ⟨_, hne58⟩
      · subst h; decide
      · exact ⟨hne47, hne92, hne58⟩

theorem digitChar_noSep (d : Nat) : NoSepChar (digitChar d) := by
  unfold digitChar
  split <;> decide

theorem toDecimal_noSep (n : Nat) : ∀ c ∈ toDecimal n, NoSepChar c := by
  induction n using Nat.strong_induction_on with
  | _ n ih =>
    intro c hc
    unfold toDecimal at hc
    split at hc
    · rw [List.mem_singleton] at hc
      rw [hc]; exact digitChar_noSep n
    · rcases List.mem_append.mp hc with h | h
      · exact ih (n / 10) (Nat.div_lt_self (by omega) (by decide)) c h
      · rw [List.mem_singleton] at h
        rw [h]; exact digitChar_noSep _

theorem padNat_noSep (width n : Nat) : ∀ c ∈ padNat width n, NoSepChar c := by
  intro c hc
  unfold padNat padZero at hc
  rcases List.mem_append.mp hc with h | h
  · rw [List.eq_of_mem_replicate h]; decide
  · exact toDecimal_noSep n c h

theorem formatTimestamp_noSep (t : Timestamp) :
    ∀ c ∈ formatTimestamp t, NoSepChar c := by
  intro c hc
  simp only [formatTimestamp, List.mem_append, List.mem_singleton] at hc
  rcases hc with ((((((((((((h | h) | h) | h) | h) | h) | h) | h) | h) | h) |
      h) | h) | h)
  all_goals first
    | exact padNat_noSep _ _ c h
    | (rw [h]; decide)

theorem randSuffix_noSep (rnd : Nat) : ∀ c ∈ randSuffix rnd, NoSepChar c := by
  intro c hc
  unfold randSuffix at hc
  rcases List.mem_cons.mp hc with h | h
  · rw [h]; decide
  · exact toDecimal_noSep rnd c h

theorem clientName_noSep (r : Request) : ∀ c ∈ clientName r, NoSepChar c := by
  intro c hc
  simp only [clientName] at hc
  split at hc
  · have hall : ∀ c ∈ unknownIP.data, NoSepChar c := by decide
    exact hall c hc
  · exact sanitizeIP_noSep _ c hc

theorem filename_noSep (r : Request) (now : Timestamp) (rnd : Nat)
    (ext : List Char) (hext : ∀ c ∈ ext, NoSepChar c) :
    ∀ c ∈ makeFilename (clientName r) (formatTimestamp now) (randSuffix rnd)
      ext, NoSepChar c := by
  intro c hc
  simp only [makeFilename, List.mem_append, List.mem_singleton] at hc
  rcases hc with (((h | h) | h) | h) | h
  · exact clientName_noSep r c h
  · rw [h]; decide
  · exact formatTimestamp_noSep now c h
  · exact randSuffix_noSep rnd c h
  · exact hext c h

/-- C8: the client address used in the filename is the trimmed first
comma-separated entry of `X-Forwarded-For` when present, else the
transport-level peer host (empty when the split fails); it is sanitized
by replacing `:`, `/` and `\`; an empty result becomes the placeholder
`"unknown"`; and no request is ever rejected for lack of an address (the
derived name is never empty and the only rejection causes are body-read
errors). -/
theorem c8_client_address :
    (∀ (fwd : List Char) (remote : Option (List Char)), fwd ≠ [] →
      getClientIP fwd remote = trimSpace (beforeComma fwd)) ∧
    (∀ h : List Char, getClientIP [] (some h) = h) ∧
    (getClientIP [] none = []) ∧
    (∀ s : List Char, ∀ c ∈ sanitizeIP s,
      c ≠ ':' ∧ c ≠ '/' ∧ c ≠ '\\') ∧
    (∀ r : Request,
      sanitizeIP (getClientIP r.forwardedFor r.remoteHost) = [] →
      clientName r = unknownIP.data) ∧
    (∀ r : Request,
      sanitizeIP (getClientIP r.forwardedFor r.remoteHost) ≠ [] →
      clientName r = sanitizeIP (getClientIP r.forwardedFor r.remoteHost)) ∧
    (∀ r : Request, clientName r ≠ []) ∧
    (∀ (gzipDecode : List Nat → Option (List Nat))
        (jsonValid : List Nat → Bool) (now : Timestamp) (rnd : Nat)
        (r : Request) (e : ReadErr),
      prepareJob gzipDecode jsonValid now rnd r = .error e →
      readBody gzipDecode r = .error e) := by
  refine ⟨?_, ?_, ?_, ?_, ?_, ?_, ?_, ?_⟩
  · intro fwd remote hne
    unfold getClientIP
    rw [if_pos hne]
  · intro h; simp [getClientIP]
  · simp [getClientIP]
  · intro s c hc
    obtain ⟨h47, h92, h58⟩ := sanitizeIP_noSep s c hc
    exact ⟨h58, h47, h92⟩
  · intro r hemp
    simp only [clientName]
    rw [if_pos hemp]
  · intro r hne
    simp only [clientName]
    rw [if_neg hne]
  · intro r
    simp only [clientName]
    split
    · decide
    · assumption
  · intro gzipDecode jsonValid now rnd r e h
    exact prepareJob_error_inv h

/-- Witness for C8 at a concrete forwarded-for header `"a, b"`. -/
theorem c8_witness :
    getClientIP ['a', ',', ' ', 'b'] none =
      trimSpace (beforeComma ['a', ',', ' ', 'b']) :=
  c8_client_address.1 ['a', ',', ' ', 'b'] none (by decide)

/-- C9: on every execution of `writeToFile` in which the pooled buffer
was acquired it is released and the file is closed, on all exit paths
including write and flush failure; the buffer is acquired exactly when
file creation succeeded; any failure is logged and the job dropped
(nothing persisted), while a fully successful path logs nothing and
persists the payload. -/
theorem c9_write_resource_discipline (data : List Nat) (path : List Char)
    (createOk writeOk flushOk : Bool) :
    ((writeToFile data path createOk writeOk flushOk).bufAcquired = true →
      (writeToFile data path createOk writeOk flushOk).bufReleased = true ∧
      (writeToFile data path createOk writeOk flushOk).fileClosed = true) ∧
    ((writeToFile data path createOk writeOk flushOk).bufAcquired =
      createOk) ∧
    (createOk = false ∨ writeOk = false ∨ flushOk = false →
      (writeToFile data path createOk writeOk flushOk).loggedError = true ∧
      (writeToFile data path createOk writeOk flushOk).content = none) ∧
    (createOk = true → writeOk = true → flushOk = true →
      (writeToFile data path createOk writeOk flushOk).loggedError = false ∧
      (writeToFile data path createOk writeOk flushOk).content = some data) := by
  cases createOk <;> cases writeOk <;> cases flushOk <;>
    simp [writeToFile]

/-- Witness for C9 on the path where the write fails after a successful
create: the buffer is still released and the file closed. -/
theorem c9_witness :
    (writeToFile [0] [] true false true).bufReleased = true ∧
      (writeToFile [0] [] true false true).fileClosed = true :=
  (c9_write_resource_discipline [0] [] true false true).1 rfl

/-- C10: every enqueued job's destination path is the upload directory
joined with a nonempty filename containing no `/`, no `\` and no `:`;
every created file is therefore a direct child of the upload directory,
whatever the client put in the forwarded-for header. -/
theorem c10_path_confinement (gzipDecode : List Nat → Option (List Nat))
    (jsonValid : List Nat → Bool) (now : Timestamp) (rnd : Nat) (r : Request)
    (queueLen : Nat) (resp : HttpResponse) (job : writeRequest)
    (hserve : handlePost gzipDecode jsonValid now rnd r queueLen resp)
    (henq : resp.enqueued = some job) :
    ∃ fname, job.path = uploadDir.data ++ '/' :: fname ∧ fname ≠ [] ∧
      ∀ c ∈ fname, c ≠ '/' ∧ c ≠ '\\' ∧ c ≠ ':' := by
  cases hserve with
  | methodNotAllowed h => exact absurd henq (by simp)
  | invalidGzip h1 h2 => exact absurd henq (by simp)
  | readFailed h1 h2 => exact absurd henq (by simp)
  | cancelledReq body isJSON job2 h1 h2 h3 => exact absurd henq (by simp)
  | accepted body isJSON job2 h1 h2 h3 =>
    simp only [Option.some.injEq] at henq
    obtain ⟨hrb, hij, hdata, hpath⟩ := prepareJob_ok_inv h2
    rw [← henq]
    refine ⟨makeFilename (clientName r) (formatTimestamp now) (randSuffix rnd)
      (if jsonValid body then jsonExt.data else txtExt.data), ?_, ?_, ?_⟩
    · rw [hpath]; rfl
    · simp [makeFilename]
    · refine filename_noSep r now rnd _ ?_
      split <;> decide

/-- Witness for C10 at the concrete admitted POST of `{}`. -/
theorem c10_witness :
    ∃ fname, testJob.path = uploadDir.data ++ '/' :: fname ∧ fname ≠ [] ∧
      ∀ c ∈ fname, c ≠ '/' ∧ c ≠ '\\' ∧ c ≠ ':' :=
  c10_path_confinement gzId jvTrue testNow 0 testReq 0
    ⟨202, jsonStoredBody, some testJob⟩ testJob
    (handlePost.accepted [123, 125] true testJob rfl rfl
      (admits.enqueue (by decide)))
    rfl

end Fapi
